import Mathlib

/-!
Verification of the anchor generation and ground-truth assignment code of
`efficientdet/utils/anchors.py` (functions `AnchorGenerator.tile_anchors_over_feature_map`,
`AnchorGenerator.__len__`, `anchor_targets_bbox`, `compute_gt_annotations`, `bbox_transform`)
against its natural-language specification.

Tensors are modelled as (nested) lists of exact rationals; TensorFlow float arithmetic is
modelled with `ℚ`, except that a division by zero — which produces a non-finite float
(±inf or NaN) in TensorFlow — is modelled as `none` of an `Option ℚ`.
-/

namespace EffDet

/-- A box `(x1, y1, x2, y2)` in corner form, as used throughout `anchors.py`. -/
structure Box where
  x1 : ℚ
  y1 : ℚ
  x2 : ℚ
  y2 : ℚ
  deriving Repr, DecidableEq

instance : Inhabited Box := ⟨⟨0, 0, 0, 0⟩⟩

/-- Width times height of a box, as computed in `compute_gt_annotations`
(`widths * heights`, lines 275-277). -/
def boxArea (b : Box) : ℚ := (b.x2 - b.x1) * (b.y2 - b.y1)

/-- Modelled from the spec: `anchors.py` imports `bndbox.bbox_overlap`, but the module
`bndbox` is not among the sources. §4.2 of the spec defines it:
`intersection = max(0, min(a.x2,b.x2) − max(a.x1,b.x1)) · max(0, min(a.y2,b.y2) − max(a.y1,b.y1))`;
`union = area(a) + area(b) − intersection`; `iou = intersection / union` with `iou = 0`
when `union = 0`. -/
def bbox_overlap (a b : Box) : ℚ :=
  let ix := max 0 (min a.x2 b.x2 - max a.x1 b.x1)
  let iy := max 0 (min a.y2 b.y2 - max a.y1 b.y1)
  let inter := ix * iy
  let uni := boxArea a + boxArea b - inter
  if uni = 0 then 0 else inter / uni

/-- Accumulator loop behind `argmaxList`: scans the remaining entries, keeping the index of
the best value seen so far; a later entry wins only if strictly greater, so ties resolve to
the lowest index, exactly as `tf.argmax` does. -/
def argmaxAux : List ℚ → ℕ → ℕ → ℚ → ℕ
  | [], _, best, _ => best
  | x :: xs, i, best, bestVal =>
    if bestVal < x then argmaxAux xs (i + 1) i x else argmaxAux xs (i + 1) best bestVal

/-- Index of the first maximal entry of a list (`tf.argmax(..., axis=-1)` on one row);
`0` on the empty list. -/
def argmaxList : List ℚ → ℕ
  | [] => 0
  | x :: xs => argmaxAux xs 1 0 x

/-- Maximum entry of a list (`tf.reduce_max(..., axis=-1)` on one row); `0` on the empty
list (unused: every claim is settled on nonempty rows). -/
def maxList : List ℚ → ℚ
  | [] => 0
  | x :: xs => xs.foldl max x

/-- Row of the overlap matrix for anchor `n`: IoU of anchor `n` against every ground-truth
box of one batch entry (`bndbox.bbox_overlap(anchors, annotations)`, line 260). -/
def overlapRow (anchors gts : List Box) (n : ℕ) : List ℚ :=
  gts.map (fun g => bbox_overlap (anchors.getD n default) g)

/-- Per-anchor result of `compute_gt_annotations`: membership in the positive and ignore
masks, and the argmax-IoU index used for all later gathers. -/
structure GtMatch where
  positive : Bool
  ignore : Bool
  argmaxIdx : ℕ
  deriving Repr, DecidableEq

/-- One anchor's slice of `compute_gt_annotations` (lines 259-291).  Note that the source
builds `batched_indices = [batch, argmax]` and gathers `max_overlap_boxes` from the tiled
ANCHORS tensor (line 271), not from the annotations, so the degeneracy test
`area < 1` reads the anchor stored at the argmax index. -/
def matchAnchor (anchors gts : List Box) (neg pos : ℚ) (n : ℕ) : GtMatch :=
  let row := overlapRow anchors gts n
  let j := argmaxList row
  let maxOv := maxList row
  let gathered := anchors.getD j default
  let smallArea := decide (boxArea gathered < 1)
  let positive := decide (pos ≤ maxOv) && !smallArea
  let ignore := (decide (neg < maxOv) && !positive) || smallArea
  ⟨positive, ignore, j⟩

/-- `compute_gt_annotations` over a whole batch: the anchors list is shared by every batch
entry (the source tiles it, line 256), the argmax/masks are computed per entry. -/
def compute_gt_annotations (anchors : List Box) (annotations : List (List Box))
    (neg pos : ℚ) : List (List GtMatch) :=
  annotations.map (fun gts => (List.range anchors.length).map (matchAnchor anchors gts neg pos))

/-- Label gathered at the argmax index (`tf.gather_nd(labels, argmax_overlaps_inds)`,
line 177). -/
def choseLabelAt (lbls : List Int) (m : GtMatch) : Int := lbls.getD m.argmaxIdx 0

/-- Positive mask after the padding-demotion step
(`tf.logical_and(positive_indices, no_padding_mask)`, line 181). -/
def positiveAfterPad (m : GtMatch) (lbl pad : Int) : Bool :=
  m.positive && !(decide (lbl = pad))

/-- Ignore mask after the padding-demotion step
(`tf.logical_or(ignore_indices, tf.logical_not(no_padding_mask))`, lines 183-184). -/
def ignoreAfterPad (m : GtMatch) (lbl pad : Int) : Bool :=
  m.ignore || decide (lbl = pad)

/-- Out-of-image test on an anchor's centre (lines 187-191): only
`centre_x >= images.shape[2]` and `centre_y >= images.shape[1]` are checked. -/
def outOfImage (imageH imageW : ℕ) (a : Box) : Bool :=
  decide ((imageW : ℚ) ≤ (a.x1 + a.x2) / 2) || decide ((imageH : ℚ) ≤ (a.y1 + a.y2) / 2)

/-- Ignore mask after the out-of-image expansion
(`tf.logical_or(ignore_indices, out_mask)`, line 192); the positive mask is NOT updated
by this step. -/
def ignoreAfterOut (m : GtMatch) (lbl pad : Int) (imageH imageW : ℕ) (a : Box) : Bool :=
  ignoreAfterPad m lbl pad || outOfImage imageH imageW a

/-- Division as performed on TensorFlow float tensors: a zero denominator yields a
non-finite float (±inf or NaN), modelled as `none`; every finite result is an exact
rational. -/
def fdiv (a b : ℚ) : Option ℚ := if b = 0 then none else some (a / b)

/-- `bbox_transform` (lines 294-316): raw offsets divided by anchor width/height, then
`(targets - mean) / std` with `mean = (0,0,0,0)` and `std = (0.2,0.2,0.2,0.2)`. -/
def bbox_transform (anchor gt : Box) : List (Option ℚ) :=
  let mean : ℚ := 0
  let std : ℚ := 0.2
  let anchorWidth := anchor.x2 - anchor.x1
  let anchorHeight := anchor.y2 - anchor.y1
  [fdiv (gt.x1 - anchor.x1) anchorWidth,
   fdiv (gt.y1 - anchor.y1) anchorHeight,
   fdiv (gt.x2 - anchor.x2) anchorWidth,
   fdiv (gt.y2 - anchor.y2) anchorHeight].map
    (fun t => t.map (fun v => (v - mean) / std))

/-- `tf.one_hot(labelVal, depth=numClasses, off_value=0)` on one scalar: a negative or
out-of-range index yields the all-zero row. -/
def oneHotLabel (numClasses : ℕ) (labelVal : Int) : List ℚ :=
  (List.range numClasses).map (fun (c : ℕ) => if (c : Int) = labelVal then 1 else 0)

/-- One anchor's row of both outputs of `anchor_targets_bbox`. -/
structure AnchorTarget where
  regression : List (Option ℚ)
  classification : List ℚ
  deriving Repr, DecidableEq

/-- The state scalar appended to both output rows
(`indices = tf.cast(positive_indices, tf.float32)` then
`tf.where(ignore_indices, -1, indices)`, lines 211-212). -/
def anchorState (positive ignore : Bool) : ℚ :=
  if ignore then -1 else if positive then 1 else 0

/-- The scalar label fed to `tf.one_hot`
(`tf.where(positive_indices, chose_labels, 0)` then
`tf.where(ignore_indices, -1, ...)`, lines 197-198). -/
def anchorLabelVal (positive ignore : Bool) (lbl : Int) : Int :=
  if ignore then -1 else if positive then lbl else 0

/-- One anchor's slice of `anchor_targets_bbox` (lines 167-219): match, demote padding
matches, expand ignore with out-of-image anchors, one-hot encode the label
(`tf.where(positive, chose_labels, 0)` then `tf.where(ignore, -1, ...)` then `tf.one_hot`,
lines 197-200), compute the regression row from the gathered box, and append the state
scalar `tf.where(ignore, -1, cast(positive))` to both rows (lines 211-217). -/
def encodeAnchor (anchors : List Box) (imageH imageW : ℕ) (gts : List Box)
    (lbls : List Int) (numClasses : ℕ) (pad : Int) (neg pos : ℚ) (n : ℕ) : AnchorTarget :=
  let a := anchors.getD n default
  let m := matchAnchor anchors gts neg pos n
  let lbl := choseLabelAt lbls m
  let positive := positiveAfterPad m lbl pad
  let ignore := ignoreAfterOut m lbl pad imageH imageW a
  let state := anchorState positive ignore
  let choseBox := gts.getD m.argmaxIdx default
  ⟨bbox_transform a choseBox ++ [some state],
   oneHotLabel numClasses (anchorLabelVal positive ignore lbl) ++ [state]⟩

/-- `anchor_targets_bbox` over the whole batch: the images tensor contributes only its
shape (`images.shape[1] = H`, `images.shape[2] = W`, batch size = leading dimension,
matching `bndboxes`). -/
def anchor_targets_bbox (anchors : List Box) (imageH imageW : ℕ)
    (bndboxes : List (List Box)) (labels : List (List Int))
    (numClasses : ℕ) (pad : Int) (neg pos : ℚ) : List (List AnchorTarget) :=
  (List.range bndboxes.length).map (fun b =>
    (List.range anchors.length).map
      (encodeAnchor anchors imageH imageW (bndboxes.getD b []) (labels.getD b [])
        numClasses pad neg pos))

/-- `AnchorGenerator.__len__` (lines 115-116): the number of canonical anchors is
`len(aspect_ratios) * len(anchor_scales)` with the fixed triad of 3 octave scales. -/
def numAnchors (aspect_ratios : List ℚ) : ℕ := aspect_ratios.length * 3

/-- `AnchorGenerator.tile_anchors_over_feature_map` (lines 49-89): the flattened
`tf.meshgrid(shift_x, shift_y)` (default cartesian indexing) gives, at flat shift index
`s` of `range(H*W)`, `shift_x = ((s % W) + 0.5) * stride` and
`shift_y = ((s / W) + 0.5) * stride`; each canonical anchor is translated by
`(sx, sy, sx, sy)` and the result is reshaped to `(K*A, 4)`, anchor index minor. -/
def tile_anchors_over_feature_map (canonical : List Box) (stride H W : ℕ) : List Box :=
  (List.range (H * W)).flatMap (fun s =>
    let sx : ℚ := ((s % W : ℕ) + 0.5) * (stride : ℚ)
    let sy : ℚ := ((s / W : ℕ) + 0.5) * (stride : ℚ)
    canonical.map (fun a => ⟨a.x1 + sx, a.y1 + sy, a.x2 + sx, a.y2 + sy⟩))

/-! ## Helper lemmas -/

/-- Indexing a map over `List.range`. -/
theorem rangeMap_getD {α : Type} (f : ℕ → α) (d : α) {n i : ℕ} (h : i < n) :
    ((List.range n).map f).getD i d = f i := by
  have h1 : i < ((List.range n).map f).length := by simpa using h
  rw [List.getD_eq_getElem _ _ h1, List.getElem_map, List.getElem_range]

/-- Indexing the appended last column. -/
theorem getD_append_length {α : Type} (l : List α) (x d : α) :
    (l ++ [x]).getD l.length d = x := by
  rw [List.getD_append_right l [x] d l.length (Nat.le_refl _)]
  simp

/-- Unfolding lemma for `matchAnchor`. -/
theorem matchAnchor_eq (anchors gts : List Box) (neg pos : ℚ) (n : ℕ) :
    matchAnchor anchors gts neg pos n =
      ⟨decide (pos ≤ maxList (overlapRow anchors gts n)) &&
         !(decide (boxArea (anchors.getD (argmaxList (overlapRow anchors gts n)) default) < 1)),
       (decide (neg < maxList (overlapRow anchors gts n)) &&
         !(decide (pos ≤ maxList (overlapRow anchors gts n)) &&
           !(decide (boxArea (anchors.getD (argmaxList (overlapRow anchors gts n)) default) < 1)))) ||
         decide (boxArea (anchors.getD (argmaxList (overlapRow anchors gts n)) default) < 1),
       argmaxList (overlapRow anchors gts n)⟩ := rfl

/-- Unfolding lemma for `encodeAnchor`. -/
theorem encodeAnchor_eq (anchors : List Box) (imageH imageW : ℕ) (gts : List Box)
    (lbls : List Int) (numClasses : ℕ) (pad : Int) (neg pos : ℚ) (n : ℕ) :
    encodeAnchor anchors imageH imageW gts lbls numClasses pad neg pos n =
      (let a := anchors.getD n default
       let m := matchAnchor anchors gts neg pos n
       let lbl := choseLabelAt lbls m
       let positive := positiveAfterPad m lbl pad
       let ignore := ignoreAfterOut m lbl pad imageH imageW a
       ⟨bbox_transform a (gts.getD m.argmaxIdx default) ++ [some (anchorState positive ignore)],
        oneHotLabel numClasses (anchorLabelVal positive ignore lbl) ++
          [anchorState positive ignore]⟩) := rfl

/-- The nested-map structure of `anchor_targets_bbox`: entry `(b, n)` is `encodeAnchor`
of batch entry `b` at anchor `n`. -/
theorem anchor_targets_bbox_getD (anchors : List Box) (imageH imageW : ℕ)
    (bndboxes : List (List Box)) (labels : List (List Int)) (numClasses : ℕ)
    (pad : Int) (neg pos : ℚ) {b n : ℕ}
    (hb : b < bndboxes.length) (hn : n < anchors.length) :
    ((anchor_targets_bbox anchors imageH imageW bndboxes labels numClasses pad neg pos).getD b
        []).getD n ⟨[], []⟩ =
      encodeAnchor anchors imageH imageW (bndboxes.getD b []) (labels.getD b [])
        numClasses pad neg pos n := by
  unfold anchor_targets_bbox
  rw [rangeMap_getD _ _ hb, rangeMap_getD _ _ hn]

theorem bbox_transform_length (anchor gt : Box) : (bbox_transform anchor gt).length = 4 := rfl

theorem oneHotLabel_length (numClasses : ℕ) (labelVal : Int) :
    (oneHotLabel numClasses labelVal).length = numClasses := by
  rw [oneHotLabel, List.length_map, List.length_range]

/-- The accumulator scan of `argmaxAux` never returns an index beyond the scanned range. -/
theorem argmaxAux_lt (xs : List ℚ) :
    ∀ (i best : ℕ) (bestVal : ℚ), best < i → argmaxAux xs i best bestVal < i + xs.length := by
  induction xs with
  | nil => intro i best bestVal h; simpa [argmaxAux] using Nat.lt_of_lt_of_le h (Nat.le_refl i)
  | cons x xs ih =>
    intro i best bestVal h
    simp only [argmaxAux, List.length_cons]
    by_cases hx : bestVal < x
    · rw [if_pos hx]
      have := ih (i + 1) i x (Nat.lt_succ_self i)
      omega
    · rw [if_neg hx]
      have := ih (i + 1) best bestVal (Nat.lt_succ_of_lt h)
      omega

/-- `tf.argmax` over a nonempty row returns a valid index. -/
theorem argmaxList_lt (l : List ℚ) (h : l ≠ []) : argmaxList l < l.length := by
  cases l with
  | nil => exact absurd rfl h
  | cons x xs =>
    have := argmaxAux_lt xs 1 0 x Nat.one_pos
    simpa [argmaxList, Nat.add_comm] using this

theorem overlapRow_length (anchors gts : List Box) (n : ℕ) :
    (overlapRow anchors gts n).length = gts.length := by
  simp [overlapRow]

/-- Boolean core of mask disjointness straight after `compute_gt_annotations`. -/
theorem masks_disjoint_bool (p q s : Bool) :
    ((p && !s) && ((q && !(p && !s)) || s)) = false := by
  cases p <;> cases q <;> cases s <;> rfl

/-- Boolean core of mask disjointness after the padding-demotion step. -/
theorem masks_disjoint_pad_bool (p i d : Bool) (h : (p && i) = false) :
    ((p && !d) && (i || d)) = false := by
  cases p <;> cases i <;> cases d <;> simp_all

/-- Length of a flat map whose pieces all have length `m`. -/
theorem flatMap_fixed_length {α β : Type} (f : β → List α) (m : ℕ)
    (hm : ∀ x, (f x).length = m) :
    ∀ l : List β, (l.flatMap f).length = l.length * m := by
  intro l
  induction l with
  | nil => simp
  | cons a l ih =>
    simp only [List.flatMap_cons, List.length_append, ih, hm, List.length_cons]
    ring

/-- Indexing a flat map whose pieces all have length `m`: position `i * m + k` falls in
piece `i` at offset `k`. -/
theorem flatMap_fixed_getD {α β : Type} (f : β → List α) (m : ℕ) (d : α)
    (hm : ∀ x, (f x).length = m) :
    ∀ (l : List β) (i k : ℕ) (hi : i < l.length), k < m →
      (l.flatMap f).getD (i * m + k) d = (f (l.get ⟨i, hi⟩)).getD k d := by
  intro l
  induction l with
  | nil => intro i k hi; exact absurd hi (Nat.not_lt_zero i)
  | cons a l ih =>
    intro i k hi hk
    cases i with
    | zero =>
      simp only [List.flatMap_cons, Nat.zero_mul, Nat.zero_add, List.get]
      rw [List.getD_append _ _ _ _ (by rw [hm]; exact hk)]
    | succ i =>
      simp only [List.flatMap_cons, List.get]
      have hlen : (f a).length ≤ (i + 1) * m + k := by
        rw [hm]; calc m ≤ (i + 1) * m := Nat.le_mul_of_pos_left m (Nat.succ_pos i)
          _ ≤ (i + 1) * m + k := Nat.le_add_right _ _
      rw [List.getD_append_right _ _ _ _ hlen, hm]
      have hidx : (i + 1) * m + k - m = i * m + k := by
        rw [Nat.succ_mul]; omega
      rw [hidx]
      exact ih i k (Nat.lt_of_succ_lt_succ hi) hk

/-- Indexing a mapped list inside its bounds. -/
theorem map_getD {α β : Type} (f : α → β) (l : List α) {k : ℕ} (hk : k < l.length)
    (d : α) (d' : β) : (l.map f).getD k d' = f (l.getD k d) := by
  rw [List.getD_eq_getElem _ _ (by simpa using hk), List.getElem_map,
    List.getD_eq_getElem _ _ hk]

/-- The trailing column of a classification row is the state scalar. -/
theorem classification_getD_state (numClasses : ℕ) (v : Int) (s : ℚ) :
    (oneHotLabel numClasses v ++ [s]).getD numClasses 0 = s := by
  have h := getD_append_length (oneHotLabel numClasses v) s (0 : ℚ)
  rwa [oneHotLabel_length] at h

/-- The trailing column of a regression row is the state scalar. -/
theorem regression_getD_state (anchor gt : Box) (q : Option ℚ) :
    (bbox_transform anchor gt ++ [q]).getD 4 none = q := by
  have h := getD_append_length (bbox_transform anchor gt) q none
  rwa [bbox_transform_length] at h

/-- The first `numClasses` columns of a classification row come from the one-hot part. -/
theorem classification_getD_lt (numClasses : ℕ) (v : Int) (s : ℚ) {c : ℕ}
    (hc : c < numClasses) :
    (oneHotLabel numClasses v ++ [s]).getD c 0 = (oneHotLabel numClasses v).getD c 0 := by
  refine List.getD_append _ _ _ _ ?_
  rw [oneHotLabel_length]; exact hc

/-- `tf.one_hot` of the ignore sentinel `-1` is the all-zero row. -/
theorem oneHotLabel_neg_getD (numClasses : ℕ) {c : ℕ} (hc : c < numClasses) :
    (oneHotLabel numClasses (-1)).getD c 0 = 0 := by
  unfold oneHotLabel
  rw [rangeMap_getD _ _ hc, if_neg (by omega : ¬((c : ℕ) : Int) = -1)]

/-! ## Claims -/

/-- C5: for every anchor with positive width `w = x2−x1` and height `h = y2−y1` and every
ground-truth box, `bbox_transform` returns componentwise
`((gt.x1−x1)/w, (gt.y1−y1)/h, (gt.x2−x2)/w, (gt.y2−y2)/h)` minus the fixed mean
`(0,0,0,0)`, divided by the fixed std `(0.2,0.2,0.2,0.2)`. -/
theorem c5_bbox_transform_formula (anchor gt : Box)
    (hw : 0 < anchor.x2 - anchor.x1) (hh : 0 < anchor.y2 - anchor.y1) :
    bbox_transform anchor gt =
      [some (((gt.x1 - anchor.x1) / (anchor.x2 - anchor.x1) - 0) / 0.2),
       some (((gt.y1 - anchor.y1) / (anchor.y2 - anchor.y1) - 0) / 0.2),
       some (((gt.x2 - anchor.x2) / (anchor.x2 - anchor.x1) - 0) / 0.2),
       some (((gt.y2 - anchor.y2) / (anchor.y2 - anchor.y1) - 0) / 0.2)] := by
  have hw' : anchor.x2 - anchor.x1 ≠ 0 := ne_of_gt hw
  have hh' : anchor.y2 - anchor.y1 ≠ 0 := ne_of_gt hh
  simp [bbox_transform, fdiv, hw', hh']

/-- Witness for C5, the spec's concrete scenario: anchor `(0,0,10,10)` and ground truth
`(1,1,9,9)` give the standardized target `(0.5, 0.5, −0.5, −0.5)`. -/
theorem c5_witness :
    (0 : ℚ) < (10 : ℚ) - 0 ∧
      bbox_transform ⟨0, 0, 10, 10⟩ ⟨1, 1, 9, 9⟩ =
        [some (1/2), some (1/2), some (-(1/2)), some (-(1/2))] :=
  ⟨by norm_num,
   (c5_bbox_transform_formula ⟨0, 0, 10, 10⟩ ⟨1, 1, 9, 9⟩ (by norm_num) (by norm_num)).trans
     (by norm_num)⟩

/-- C9 counterexample: at the zero-width anchor `(0,0,0,10)` (so `x2 − x1 = 0 ≤ 0`),
`bbox_transform` raises no error of any kind — no `DegenerateAnchorError` exists anywhere
in the sources — and instead RETURNS a row whose x-components are the non-finite floats
produced by division by zero (modelled `none`). -/
theorem c9_zero_width_returns_nonfinite :
    bbox_transform ⟨0, 0, 0, 10⟩ ⟨1, 1, 9, 9⟩ = [none, some (1/2), none, some (-(1/2))] := by
  norm_num [bbox_transform, fdiv]

/-- C9 amended: `bbox_transform` performs no degeneracy check and never fails: a zero
width or height anchor silently yields non-finite components (see the counterexample),
while every anchor with positive width and height yields four finite values. -/
theorem c9_amended_finite_iff_nondegenerate (anchor gt : Box)
    (hw : 0 < anchor.x2 - anchor.x1) (hh : 0 < anchor.y2 - anchor.y1) :
    ∃ v1 v2 v3 v4 : ℚ,
      bbox_transform anchor gt = [some v1, some v2, some v3, some v4] := by
  refine ⟨((gt.x1 - anchor.x1) / (anchor.x2 - anchor.x1) - 0) / 0.2,
    ((gt.y1 - anchor.y1) / (anchor.y2 - anchor.y1) - 0) / 0.2,
    ((gt.x2 - anchor.x2) / (anchor.x2 - anchor.x1) - 0) / 0.2,
    ((gt.y2 - anchor.y2) / (anchor.y2 - anchor.y1) - 0) / 0.2, ?_⟩
  simp [bbox_transform, fdiv, ne_of_gt hw, ne_of_gt hh]

/-- Witness for the amended C9 at a concrete non-degenerate anchor. -/
theorem c9_witness :
    (0 : ℚ) < (10 : ℚ) - 0 ∧
      (∃ v1 v2 v3 v4 : ℚ,
        bbox_transform ⟨0, 0, 10, 10⟩ ⟨1, 1, 9, 9⟩ = [some v1, some v2, some v3, some v4]) :=
  ⟨by norm_num, c9_amended_finite_iff_nondegenerate ⟨0, 0, 10, 10⟩ ⟨1, 1, 9, 9⟩
    (by norm_num) (by norm_num)⟩

/-- C8: for every feature-map shape `(H, W)` and every canonical anchor set with
`A = |aspect_ratios| × 3` anchors, tiling returns exactly `H·W·A` boxes, and the box at
output index `(row·W + col)·A + k` is canonical anchor `k` translated by
`((col+0.5)·stride, (row+0.5)·stride)` on both coordinate pairs. -/
theorem c8_tiling_length_and_order (canonical : List Box) (aspect_ratios : List ℚ)
    (stride H W : ℕ) (hA : canonical.length = numAnchors aspect_ratios) :
    (tile_anchors_over_feature_map canonical stride H W).length
        = H * W * numAnchors aspect_ratios ∧
      ∀ row col k : ℕ, row < H → col < W → k < numAnchors aspect_ratios →
        (tile_anchors_over_feature_map canonical stride H W).getD
            ((row * W + col) * numAnchors aspect_ratios + k) default =
          ⟨(canonical.getD k default).x1 + ((col : ℚ) + 0.5) * (stride : ℚ),
           (canonical.getD k default).y1 + ((row : ℚ) + 0.5) * (stride : ℚ),
           (canonical.getD k default).x2 + ((col : ℚ) + 0.5) * (stride : ℚ),
           (canonical.getD k default).y2 + ((row : ℚ) + 0.5) * (stride : ℚ)⟩ := by
  have hm : ∀ s : ℕ,
      ((fun s : ℕ =>
        (canonical.map (fun a : Box =>
          (⟨a.x1 + ((s % W : ℕ) + 0.5) * (stride : ℚ), a.y1 + ((s / W : ℕ) + 0.5) * (stride : ℚ),
            a.x2 + ((s % W : ℕ) + 0.5) * (stride : ℚ),
            a.y2 + ((s / W : ℕ) + 0.5) * (stride : ℚ)⟩ : Box)))) s).length
        = numAnchors aspect_ratios := by
    intro s; rw [List.length_map, hA]
  constructor
  · rw [tile_anchors_over_feature_map, flatMap_fixed_length _ _ hm, List.length_range]
  · intro row col k hrow hcol hk
    have hW : 0 < W := Nat.pos_of_ne_zero (by rintro rfl; exact Nat.not_lt_zero col hcol)
    have hs : row * W + col < H * W := by
      calc row * W + col < row * W + W := Nat.add_lt_add_left hcol _
        _ = (row + 1) * W := by ring
        _ ≤ H * W := Nat.mul_le_mul_right W hrow
    have hs' : row * W + col < (List.range (H * W)).length := by simpa using hs
    rw [tile_anchors_over_feature_map,
      flatMap_fixed_getD _ _ _ hm (List.range (H * W)) (row * W + col) k hs' hk]
    have hget : (List.range (H * W)).get ⟨row * W + col, hs'⟩ = row * W + col := by
      simp
    rw [hget]
    have hmod : (row * W + col) % W = col := by
      rw [Nat.mul_comm row W, Nat.mul_add_mod, Nat.mod_eq_of_lt hcol]
    have hdiv : (row * W + col) / W = row := by
      rw [Nat.mul_comm row W, Nat.mul_add_div hW, Nat.div_eq_of_lt hcol, Nat.add_zero]
    rw [map_getD _ _ (by rw [hA]; exact hk) default default, hmod, hdiv]

/-- Witness for C8: three canonical anchors (`A = |[1]| × 3 = 3`), stride 4, a 2×3 grid;
the box at index `(1·3 + 2)·3 + 1 = 16` is canonical anchor 1 shifted by
`((2+0.5)·4, (1+0.5)·4) = (10, 6)`. -/
theorem c8_witness :
    ([(⟨0, 0, 1, 1⟩ : Box), ⟨0, 0, 2, 2⟩, ⟨0, 0, 3, 3⟩].length = numAnchors [1]) ∧
      (tile_anchors_over_feature_map [⟨0, 0, 1, 1⟩, ⟨0, 0, 2, 2⟩, ⟨0, 0, 3, 3⟩] 4 2 3).getD 16
          default = ⟨10, 6, 12, 8⟩ :=
  ⟨by norm_num [numAnchors],
   ((c8_tiling_length_and_order [⟨0, 0, 1, 1⟩, ⟨0, 0, 2, 2⟩, ⟨0, 0, 3, 3⟩] [1] 4 2 3
        (by norm_num [numAnchors])).2 1 2 1 (by norm_num) (by norm_num)
        (by norm_num [numAnchors])).trans (by norm_num [numAnchors])⟩

/-- C3 counterexample: a positive anchor centred at `x = 105 ≥ W = 100` — anchor
`(100,0,110,10)` matching an identical ground-truth box with IoU 1 and a real label —
is in the positive mask AND in the out-of-image-expanded ignore mask simultaneously:
the out-of-image step (line 192) updates only `ignore_indices`, so the masks are NOT
disjoint after it. -/
theorem c3_masks_overlap_after_out_of_image :
    positiveAfterPad (matchAnchor [⟨100, 0, 110, 10⟩] [⟨100, 0, 110, 10⟩] (4/10) (5/10) 0)
        (choseLabelAt [0] (matchAnchor [⟨100, 0, 110, 10⟩] [⟨100, 0, 110, 10⟩] (4/10) (5/10) 0))
        (-1) = true ∧
      ignoreAfterOut (matchAnchor [⟨100, 0, 110, 10⟩] [⟨100, 0, 110, 10⟩] (4/10) (5/10) 0)
        (choseLabelAt [0] (matchAnchor [⟨100, 0, 110, 10⟩] [⟨100, 0, 110, 10⟩] (4/10) (5/10) 0))
        (-1) 100 100 ([(⟨100, 0, 110, 10⟩ : Box)].getD 0 default) = true := by
  norm_num [matchAnchor, overlapRow, bbox_overlap, boxArea, argmaxList, argmaxAux, maxList,
    choseLabelAt, positiveAfterPad, ignoreAfterPad, ignoreAfterOut, outOfImage,
    min_def, max_def]

/-- C3 amended: the positive and ignore masks are disjoint for every anchor of every
batch entry immediately after `compute_gt_annotations` and again after the
padding-demotion step; the claim's third part fails — the out-of-image step expands only
the ignore mask, so a positive anchor centred right of or below the image lies in both
masks (the final state scalar still resolves to Ignore because the ignore mask wins). -/
theorem c3_amended_masks_disjoint_through_padding (anchors gts : List Box)
    (lbls : List Int) (pad : Int) (neg pos : ℚ) (n : ℕ) :
    ((matchAnchor anchors gts neg pos n).positive
        && (matchAnchor anchors gts neg pos n).ignore) = false ∧
      (positiveAfterPad (matchAnchor anchors gts neg pos n)
          (choseLabelAt lbls (matchAnchor anchors gts neg pos n)) pad
        && ignoreAfterPad (matchAnchor anchors gts neg pos n)
          (choseLabelAt lbls (matchAnchor anchors gts neg pos n)) pad) = false := by
  have h1 : ((matchAnchor anchors gts neg pos n).positive
      && (matchAnchor anchors gts neg pos n).ignore) = false := by
    rw [matchAnchor_eq]
    exact masks_disjoint_bool _ _ _
  refine ⟨h1, ?_⟩
  unfold positiveAfterPad ignoreAfterPad
  exact masks_disjoint_pad_bool _ _ _ h1

/-- C6 counterexample: with anchors `[(0,0,0.5,0.5), (0,0,10,10)]` and the single
ground-truth box `(0,0,10,5)` (area 50, clearly non-degenerate), anchor 1 has
`max_iou = 0.5 = positive_overlap` exactly, yet it is NOT marked positive: the degeneracy
flag is computed from the box gathered from the ANCHORS list at the argmax index 0, the
degenerate `(0,0,0.5,0.5)`, not from the matched ground-truth box. -/
theorem c6_boundary_blocked_by_gathered_anchor :
    boxArea (⟨0, 0, 10, 5⟩ : Box) = 50 ∧
      maxList (overlapRow [⟨0, 0, 1/2, 1/2⟩, ⟨0, 0, 10, 10⟩] [⟨0, 0, 10, 5⟩] 1) = 5/10 ∧
      (matchAnchor [⟨0, 0, 1/2, 1/2⟩, ⟨0, 0, 10, 10⟩] [⟨0, 0, 10, 5⟩] (4/10) (5/10) 1).positive
        = false := by
  norm_num [matchAnchor, overlapRow, bbox_overlap, boxArea, argmaxList, argmaxAux, maxList,
    min_def, max_def]

/-- C6 amended: for every anchor whose degeneracy flag, as the code computes it — the
area of the box gathered from the anchors list at the argmax index — is not small
(area ≥ 1): `max_iou = positive_overlap` exactly marks the anchor positive (the test uses
`≥`), and `max_iou = negative_overlap` exactly does not trigger the overlap ignore rule
(strict `>`), so a non-positive anchor there is background. -/
theorem c6_amended_boundary_semantics (anchors gts : List Box) (neg pos : ℚ) (n : ℕ)
    (hlarge : ¬ boxArea (anchors.getD (argmaxList (overlapRow anchors gts n)) default) < 1) :
    (maxList (overlapRow anchors gts n) = pos →
      (matchAnchor anchors gts neg pos n).positive = true) ∧
    (maxList (overlapRow anchors gts n) = neg →
      (matchAnchor anchors gts neg pos n).positive = false →
      (matchAnchor anchors gts neg pos n).ignore = false) := by
  have hsmall : decide
      (boxArea (anchors.getD (argmaxList (overlapRow anchors gts n)) default) < 1) = false :=
    decide_eq_false hlarge
  constructor
  · intro hmax
    rw [matchAnchor_eq]
    show (decide (pos ≤ maxList (overlapRow anchors gts n)) && _) = true
    rw [hmax, decide_eq_true (le_refl pos), hsmall]
    rfl
  · intro hmax _hpos
    rw [matchAnchor_eq]
    show ((decide (neg < maxList (overlapRow anchors gts n)) && _) || _) = false
    rw [hmax, decide_eq_false (lt_irrefl neg), hsmall]
    rfl

/-- Witness for the amended C6: anchor `(0,0,10,10)` against ground truth `(0,0,10,5)`
has `max_iou = 0.5 = positive_overlap` and a non-small gathered box, and is marked
positive. -/
theorem c6_witness :
    (¬ boxArea ([(⟨0, 0, 10, 10⟩ : Box)].getD
        (argmaxList (overlapRow [⟨0, 0, 10, 10⟩] [⟨0, 0, 10, 5⟩] 0)) default) < 1) ∧
      (matchAnchor [⟨0, 0, 10, 10⟩] [⟨0, 0, 10, 5⟩] (4/10) (5/10) 0).positive = true :=
  ⟨by norm_num [overlapRow, bbox_overlap, boxArea, argmaxList, argmaxAux, min_def, max_def],
   (c6_amended_boundary_semantics [⟨0, 0, 10, 10⟩] [⟨0, 0, 10, 5⟩] (4/10) (5/10) 0
      (by norm_num [overlapRow, bbox_overlap, boxArea, argmaxList, argmaxAux,
        min_def, max_def])).1
     (by norm_num [overlapRow, bbox_overlap, boxArea, argmaxList, argmaxAux, maxList,
       min_def, max_def])⟩

/-- An anchor whose gathered label is the padding sentinel ends with state `-1`:
the padding-demotion step puts it into the ignore mask, and the state scalar resolves
ignore before positive. -/
theorem encodeAnchor_state_of_pad (anchors : List Box) (imageH imageW : ℕ) (gts : List Box)
    (lbls : List Int) (numClasses : ℕ) (pad : Int) (neg pos : ℚ) (n : ℕ)
    (hl : choseLabelAt lbls (matchAnchor anchors gts neg pos n) = pad) :
    (encodeAnchor anchors imageH imageW gts lbls numClasses pad neg pos n).classification.getD
      numClasses 0 = -1 := by
  rw [encodeAnchor_eq]
  dsimp only
  rw [classification_getD_state]
  have hI : ignoreAfterOut (matchAnchor anchors gts neg pos n)
      (choseLabelAt lbls (matchAnchor anchors gts neg pos n)) pad imageH imageW
      (anchors.getD n default) = true := by
    unfold ignoreAfterOut ignoreAfterPad
    rw [decide_eq_true hl]
    simp
  rw [hI]
  simp [anchorState]

/-- C7: in `anchor_targets_bbox`, every anchor whose gathered matched label equals
`padding_value` ends with trailing state `-1` (removed from positive, added to ignore),
hence never Foreground; consequently, for a batch entry whose labels are all equal to
`padding_value` (zero real ground-truth boxes), every anchor of that entry ends with
state `-1` — none ends positive. -/
theorem c7_padding_never_foreground (anchors : List Box) (imageH imageW : ℕ)
    (bndboxes : List (List Box)) (labels : List (List Int)) (numClasses : ℕ)
    (pad : Int) (neg pos : ℚ) (b n : ℕ)
    (hb : b < bndboxes.length) (hn : n < anchors.length) :
    (choseLabelAt (labels.getD b []) (matchAnchor anchors (bndboxes.getD b []) neg pos n)
        = pad →
      (((anchor_targets_bbox anchors imageH imageW bndboxes labels numClasses pad neg
          pos).getD b []).getD n ⟨[], []⟩).classification.getD numClasses 0 = -1) ∧
    ((∀ l ∈ labels.getD b [], l = pad) →
      (labels.getD b []).length = (bndboxes.getD b []).length →
      bndboxes.getD b [] ≠ [] →
      (((anchor_targets_bbox anchors imageH imageW bndboxes labels numClasses pad neg
          pos).getD b []).getD n ⟨[], []⟩).classification.getD numClasses 0 = -1) := by
  rw [anchor_targets_bbox_getD anchors imageH imageW bndboxes labels numClasses pad neg pos
    hb hn]
  constructor
  · intro hl
    exact encodeAnchor_state_of_pad anchors imageH imageW _ _ numClasses pad neg pos n hl
  · intro hall hlen hne
    have hrow : (overlapRow anchors (bndboxes.getD b []) n).length
        = (bndboxes.getD b []).length := overlapRow_length _ _ _
    have hrowne : overlapRow anchors (bndboxes.getD b []) n ≠ [] := by
      intro hcontra
      apply hne
      have := hrow
      rw [hcontra] at this
      exact List.eq_nil_of_length_eq_zero this.symm
    have hj : argmaxList (overlapRow anchors (bndboxes.getD b []) n)
        < (labels.getD b []).length := by
      rw [hlen, ← hrow]
      exact argmaxList_lt _ hrowne
    have hl : choseLabelAt (labels.getD b [])
        (matchAnchor anchors (bndboxes.getD b []) neg pos n) = pad := by
      unfold choseLabelAt
      rw [matchAnchor_eq]
      dsimp only
      rw [List.getD_eq_getElem _ _ hj]
      exact hall _ (List.getElem_mem hj)
    exact encodeAnchor_state_of_pad anchors imageH imageW _ _ numClasses pad neg pos n hl

/-- Witness for C7: a batch entry whose only label is the padding sentinel `-1`; the
single anchor ends with state `-1`. -/
theorem c7_witness :
    (((anchor_targets_bbox [⟨0, 0, 10, 10⟩] 100 100 [[⟨0, 0, 10, 10⟩]] [[-1]] 1 (-1)
        (4/10) (5/10)).getD 0 []).getD 0 ⟨[], []⟩).classification.getD 1 0 = -1 :=
  (c7_padding_never_foreground [⟨0, 0, 10, 10⟩] 100 100 [[⟨0, 0, 10, 10⟩]] [[-1]] 1 (-1)
      (4/10) (5/10) 0 0 (by norm_num) (by norm_num)).2
    (by simp) (by simp) (by simp)

/-- C10: ignore dominates positive in the final outputs of `anchor_targets_bbox` — for
every anchor in the (possibly expanded) ignore mask, even one simultaneously in the
positive mask, the trailing state scalar is `-1` in both the regression and the
classification row and the first `numClasses` classification entries are all zero; and
unconditionally the trailing state columns of the two outputs agree on every anchor. -/
theorem c10_ignore_dominates (anchors : List Box) (imageH imageW : ℕ)
    (bndboxes : List (List Box)) (labels : List (List Int)) (numClasses : ℕ)
    (pad : Int) (neg pos : ℚ) (b n : ℕ)
    (hb : b < bndboxes.length) (hn : n < anchors.length) :
    (ignoreAfterOut (matchAnchor anchors (bndboxes.getD b []) neg pos n)
        (choseLabelAt (labels.getD b [])
          (matchAnchor anchors (bndboxes.getD b []) neg pos n)) pad imageH imageW
        (anchors.getD n default) = true →
      (((anchor_targets_bbox anchors imageH imageW bndboxes labels numClasses pad neg
            pos).getD b []).getD n ⟨[], []⟩).regression.getD 4 none = some (-1) ∧
      (((anchor_targets_bbox anchors imageH imageW bndboxes labels numClasses pad neg
            pos).getD b []).getD n ⟨[], []⟩).classification.getD numClasses 0 = -1 ∧
      ∀ c : ℕ, c < numClasses →
        (((anchor_targets_bbox anchors imageH imageW bndboxes labels numClasses pad neg
            pos).getD b []).getD n ⟨[], []⟩).classification.getD c 0 = 0) ∧
    (((anchor_targets_bbox anchors imageH imageW bndboxes labels numClasses pad neg
        pos).getD b []).getD n ⟨[], []⟩).regression.getD 4 none =
      some ((((anchor_targets_bbox anchors imageH imageW bndboxes labels numClasses pad
        neg pos).getD b []).getD n ⟨[], []⟩).classification.getD numClasses 0) := by
  rw [anchor_targets_bbox_getD anchors imageH imageW bndboxes labels numClasses pad neg pos
    hb hn, encodeAnchor_eq]
  dsimp only
  constructor
  · intro hI
    rw [hI]
    refine ⟨?_, ?_, ?_⟩
    · rw [regression_getD_state]
      simp [anchorState]
    · rw [classification_getD_state]
      simp [anchorState]
    · intro c hc
      rw [classification_getD_lt _ _ _ hc]
      have hv : anchorLabelVal
          (positiveAfterPad (matchAnchor anchors (bndboxes.getD b []) neg pos n)
            (choseLabelAt (labels.getD b [])
              (matchAnchor anchors (bndboxes.getD b []) neg pos n)) pad) true
          (choseLabelAt (labels.getD b [])
            (matchAnchor anchors (bndboxes.getD b []) neg pos n)) = -1 := by
        simp [anchorLabelVal]
      rw [hv]
      exact oneHotLabel_neg_getD numClasses hc
  · rw [regression_getD_state, classification_getD_state]

/-- Witness for C10 at a concrete batch entry whose only label is the padding sentinel
(so its anchor is in the expanded ignore mask): the classification state column is
`-1`. -/
theorem c10_witness :
    (((anchor_targets_bbox [⟨0, 0, 10, 10⟩] 100 100 [[⟨0, 0, 10, 10⟩]] [[-1]] 1 (-1)
        (4/10) (5/10)).getD 0 []).getD 0 ⟨[], []⟩).classification.getD 1 0 = -1 ∧
    (((anchor_targets_bbox [⟨0, 0, 10, 10⟩] 100 100 [[⟨0, 0, 10, 10⟩]] [[-1]] 1 (-1)
        (4/10) (5/10)).getD 0 []).getD 0 ⟨[], []⟩).regression.getD 4 none = some (-1) := by
  have h := c10_ignore_dominates [⟨0, 0, 10, 10⟩] 100 100 [[⟨0, 0, 10, 10⟩]] [[-1]] 1 (-1)
    (4/10) (5/10) 0 0 (by norm_num) (by norm_num)
  have hI := h.1 (by simp [ignoreAfterOut, ignoreAfterPad, choseLabelAt, matchAnchor,
    overlapRow, argmaxList, argmaxAux])
  exact ⟨hI.2.1, hI.1⟩

/-- C4 counterexample: the anchor `(-20,-20,-10,-10)` has centre `(-15,-15)`, outside the
open rectangle `(0,100)×(0,100)` on the low side (`cx ≤ 0` and `cy ≤ 0`), and it matches
an identical ground-truth box with IoU 1; the code checks only `cx ≥ W` / `cy ≥ H`
(lines 189-190), so this anchor is NOT ignored: both trailing state scalars are `1`, not
`-1`. -/
theorem c4_negative_centre_not_ignored :
    anchor_targets_bbox [⟨-20, -20, -10, -10⟩] 100 100 [[⟨-20, -20, -10, -10⟩]] [[0]] 1
        (-1) (4/10) (5/10)
      = [[⟨[some 0, some 0, some 0, some 0, some 1], [1, 1]⟩]] := by
  have hr1 : List.range 1 = [0] := rfl
  norm_num [anchor_targets_bbox, hr1, encodeAnchor, matchAnchor, overlapRow, bbox_overlap,
    boxArea, argmaxList, argmaxAux, maxList, choseLabelAt, positiveAfterPad, ignoreAfterPad,
    ignoreAfterOut, outOfImage, anchorState, anchorLabelVal, oneHotLabel, bbox_transform,
    fdiv, min_def, max_def]

/-- C4 amended: an anchor whose centre satisfies `cx ≥ W` or `cy ≥ H` always ends with
trailing state `-1` in both outputs, even if its IoU qualifies it as positive; centres on
the low side (`cx ≤ 0` or `cy ≤ 0`) are NOT checked by the code (see the
counterexample). -/
theorem c4_amended_right_or_below_centre_ignored (anchors : List Box) (imageH imageW : ℕ)
    (bndboxes : List (List Box)) (labels : List (List Int)) (numClasses : ℕ)
    (pad : Int) (neg pos : ℚ) (b n : ℕ)
    (hb : b < bndboxes.length) (hn : n < anchors.length)
    (hout : (imageW : ℚ) ≤ ((anchors.getD n default).x1 + (anchors.getD n default).x2) / 2 ∨
            (imageH : ℚ) ≤ ((anchors.getD n default).y1 + (anchors.getD n default).y2) / 2) :
    (((anchor_targets_bbox anchors imageH imageW bndboxes labels numClasses pad neg
        pos).getD b []).getD n ⟨[], []⟩).regression.getD 4 none = some (-1) ∧
    (((anchor_targets_bbox anchors imageH imageW bndboxes labels numClasses pad neg
        pos).getD b []).getD n ⟨[], []⟩).classification.getD numClasses 0 = -1 := by
  rw [anchor_targets_bbox_getD anchors imageH imageW bndboxes labels numClasses pad neg pos
    hb hn, encodeAnchor_eq]
  dsimp only
  have hO : outOfImage imageH imageW (anchors.getD n default) = true := by
    unfold outOfImage
    rcases hout with h | h
    · rw [decide_eq_true h]
      simp
    · rw [decide_eq_true h]
      simp
  have hI : ignoreAfterOut (matchAnchor anchors (bndboxes.getD b []) neg pos n)
      (choseLabelAt (labels.getD b [])
        (matchAnchor anchors (bndboxes.getD b []) neg pos n)) pad imageH imageW
      (anchors.getD n default) = true := by
    unfold ignoreAfterOut
    rw [hO]
    simp
  rw [hI, regression_getD_state, classification_getD_state]
  constructor <;> simp [anchorState]

/-- Witness for the amended C4: the positive-quality anchor `(100,0,110,10)` with centre
`x = 105 ≥ W = 100` ends with state `-1` in both outputs. -/
theorem c4_witness :
    (((anchor_targets_bbox [⟨100, 0, 110, 10⟩] 100 100 [[⟨100, 0, 110, 10⟩]] [[0]] 1 (-1)
        (4/10) (5/10)).getD 0 []).getD 0 ⟨[], []⟩).regression.getD 4 none = some (-1) ∧
    (((anchor_targets_bbox [⟨100, 0, 110, 10⟩] 100 100 [[⟨100, 0, 110, 10⟩]] [[0]] 1 (-1)
        (4/10) (5/10)).getD 0 []).getD 0 ⟨[], []⟩).classification.getD 1 0 = -1 :=
  c4_amended_right_or_below_centre_ignored [⟨100, 0, 110, 10⟩] 100 100 [[⟨100, 0, 110, 10⟩]]
    [[0]] 1 (-1) (4/10) (5/10) 0 0 (by norm_num) (by norm_num) (by norm_num)

/-- C1, failing input: the anchor `(0,0,10,10)` has IoU 0 with the only ground-truth box
`(50,50,60,60)` (real label 0), so its final state is Background (trailing `0`); but its
classification row is `[1, 0]`, the ONE-HOT AT CLASS 0 — not the zero vector the claim
requires for background anchors — because `tf.where(positive, chose_labels, 0)` feeds the
scalar `0` to `tf.one_hot` (lines 197-200) and `tf.one_hot(0, 2) = (1, 0)`. -/
theorem c1_background_row_is_one_hot_at_class_zero :
    anchor_targets_bbox [⟨0, 0, 10, 10⟩] 100 100 [[⟨50, 50, 60, 60⟩]] [[0]] 2 (-1)
        (4/10) (5/10)
      = [[⟨[some 25, some 25, some 25, some 25, some 0], [1, 0, 0]⟩]] := by
  have hr1 : List.range 1 = [0] := rfl
  have hr2 : List.range 2 = [0, 1] := rfl
  norm_num [anchor_targets_bbox, hr1, hr2, encodeAnchor, matchAnchor, overlapRow,
    bbox_overlap, boxArea, argmaxList, argmaxAux, maxList, choseLabelAt, positiveAfterPad,
    ignoreAfterPad, ignoreAfterOut, outOfImage, anchorState, anchorLabelVal, oneHotLabel,
    bbox_transform, fdiv, min_def, max_def]

/-- C2, failing input: anchors `[(0,0,0.5,0.5), (0,0,10,10)]`, single ground-truth box
`(0,0,10,10)` of area 100. Anchor 1 overlaps it perfectly (IoU 1), so per the claim it
must be positive; but the code gathers the degeneracy box from the ANCHORS tensor at the
argmax index 0 (line 271) — the 0.5×0.5 anchor of area 0.25 — so `small_areas` fires and
anchor 1 is forced into the ignore mask instead. -/
theorem c2_degeneracy_reads_anchor_not_ground_truth :
    boxArea (⟨0, 0, 10, 10⟩ : Box) = 100 ∧
      bbox_overlap ([(⟨0, 0, 1/2, 1/2⟩ : Box), ⟨0, 0, 10, 10⟩].getD 1 default)
        ⟨0, 0, 10, 10⟩ = 1 ∧
      matchAnchor [⟨0, 0, 1/2, 1/2⟩, ⟨0, 0, 10, 10⟩] [⟨0, 0, 10, 10⟩] (4/10) (5/10) 1
        = ⟨false, true, 0⟩ := by
  refine ⟨by norm_num [boxArea], ?_, ?_⟩
  · norm_num [bbox_overlap, boxArea, min_def, max_def]
  · norm_num [matchAnchor, overlapRow, bbox_overlap, boxArea, argmaxList, argmaxAux,
      maxList, min_def, max_def]

end EffDet
